import Mathlib

/-!
Shallow embedding of the interval-scheduling engine of pinraspberry/CalTalk
(`backend/app/services/calendar.py`, `app/services/scheduler.py`,
`backend/app/config.py`).

Times are modelled as `Int` minutes since a fixed epoch taken to be the
midnight opening a Monday (Python `datetime.weekday()` numbers Monday as 0).
All intervals are half-open `[fst, snd)`.  Python integers are unbounded, so
`Int` is the faithful carrier; every datetime the source manipulates is
nonnegative, and only nonnegative times appear in the concrete inputs below.
Fallible or possibly non-terminating code is modelled with `Option` /
`Except`: the `while` loop of `find_free_slots` is given explicit fuel and
returns `none` when the fuel is exhausted, so a `none` at every fuel models a
loop that never terminates.
-/

set_option maxRecDepth 2000

namespace CalTalk

/-- Half-open interval `[fst, snd)` in minutes. -/
abbrev Interval : Type := Int × Int

/-- Minutes in a day: `find_free_slots` scans the window `[dayStart, dayStart + 1440)`. -/
def minutesPerDay : Int := 1440

/-- Model of the `for busy_start, busy_end in busy_slots` loop inside
`find_free_slots` (calendar.py 174-178): the first busy interval, in list
order, that overlaps the candidate `[s, e)` under the half-open test
`current_time < busy_end and slot_end > busy_start`.  The list order is the
provider's order (sorted by start time, `orderBy='startTime'`). -/
def firstBlocking (busy : List Interval) (s e : Int) : Option Interval :=
  busy.find? (fun b => decide (s < b.2) && decide (e > b.1))

/-- Model of the `while current_time < end_time` loop of `find_free_slots`
(calendar.py 168-188).  One recursive call per loop iteration, paid for with
one unit of fuel; `none` means the fuel ran out, so `none` at every fuel
models non-termination.  On a free candidate the slot is emitted and the
cursor advances by `d`; on a conflict the source sets
`current_time = busy_end` inside the loop and then adds the 15-minute step
after it, so the cursor becomes `b.2 + 15`. -/
def findFreeSlotsAux (busy : List Interval) (d endT : Int) (cursor : Int) (fuel : Nat) :
    Option (List Interval) :=
  if cursor < endT then
    if cursor + d > endT then some []
    else
      match fuel with
      | 0 => none
      | fuel' + 1 =>
        match firstBlocking busy cursor (cursor + d) with
        | some b => findFreeSlotsAux busy d endT (b.2 + 15) fuel'
        | none =>
          (findFreeSlotsAux busy d endT (cursor + d) fuel').map
            (fun rest => (cursor, cursor + d) :: rest)
  else some []

/-- Model of `find_free_slots(date, duration_minutes)` (calendar.py 149-189):
scan the day window `[dayStart, dayStart + 1440)` against the day's busy
intervals.  The fuel 1441 covers every possible iteration count when the
duration is positive (the cursor strictly gains at least one minute per
iteration over a 1440-minute window); `none` therefore models a call that
never returns. -/
def find_free_slots (busy : List Interval) (durationMinutes : Int) (dayStart : Int) :
    Option (List Interval) :=
  findFreeSlotsAux busy durationMinutes (dayStart + minutesPerDay) dayStart 1441

/-- Modelled from the spec's words, for comparison with `findFreeSlotsAux`
(spec §4.2): on a conflict "advance the cursor to `max(cursor + fixedStep,
blockingEnd)`" with `fixedStep = 15`.  Identical to `findFreeSlotsAux` except
for the conflict advance. -/
def findFreeSlotsSpecAux (busy : List Interval) (d endT : Int) (cursor : Int) (fuel : Nat) :
    Option (List Interval) :=
  if cursor < endT then
    if cursor + d > endT then some []
    else
      match fuel with
      | 0 => none
      | fuel' + 1 =>
        match firstBlocking busy cursor (cursor + d) with
        | some b => findFreeSlotsSpecAux busy d endT (max (cursor + 15) b.2) fuel'
        | none =>
          (findFreeSlotsSpecAux busy d endT (cursor + d) fuel').map
            (fun rest => (cursor, cursor + d) :: rest)
  else some []

/-- Spec-worded variant of `find_free_slots`, used only to witness where the
source's conflict advance differs from the spec's `max` formula. -/
def find_free_slots_specStep (busy : List Interval) (durationMinutes : Int) (dayStart : Int) :
    Option (List Interval) :=
  findFreeSlotsSpecAux busy durationMinutes (dayStart + minutesPerDay) dayStart 1441

section FindFreeSlotsLemmas

/-- A found blocking interval really overlaps the candidate. -/
theorem firstBlocking_some {busy : List Interval} {s e : Int} {b : Interval}
    (h : firstBlocking busy s e = some b) : s < b.2 ∧ e > b.1 := by
  have := List.find?_some h
  simpa using this

/-- When the inner loop finds no blocking interval, no busy interval overlaps
the candidate. -/
theorem firstBlocking_none {busy : List Interval} {s e : Int}
    (h : firstBlocking busy s e = none) : ∀ b ∈ busy, ¬ (s < b.2 ∧ e > b.1) := by
  intro b hb
  have := List.find?_eq_none.mp h b hb
  simpa using this

/-- Invariant of the scan: every slot an accepted run emits has length `d`,
starts at or after the cursor, ends by the window end, and overlaps no busy
interval (half-open test). -/
theorem findFreeSlotsAux_sound (busy : List Interval) (d endT : Int) :
    ∀ (fuel : Nat) (cursor : Int) (slots : List Interval),
      0 < d →
      findFreeSlotsAux busy d endT cursor fuel = some slots →
      ∀ s ∈ slots, s.2 = s.1 + d ∧ cursor ≤ s.1 ∧ s.2 ≤ endT ∧
        ∀ b ∈ busy, ¬ (s.1 < b.2 ∧ b.1 < s.2) := by
  intro fuel
  induction fuel with
  | zero =>
    intro cursor slots hd h s hs
    rw [findFreeSlotsAux] at h
    by_cases h1 : cursor < endT
    · simp only [if_pos h1] at h
      by_cases h2 : cursor + d > endT
      · simp only [if_pos h2] at h
        cases h
        simp at hs
      · simp only [if_neg h2] at h
        cases h
    · simp only [if_neg h1] at h
      cases h
      simp at hs
  | succ fuel' ih =>
    intro cursor slots hd h s hs
    rw [findFreeSlotsAux] at h
    by_cases h1 : cursor < endT
    · simp only [if_pos h1] at h
      by_cases h2 : cursor + d > endT
      · simp only [if_pos h2] at h
        cases h
        simp at hs
      · simp only [if_neg h2] at h
        cases hb : firstBlocking busy cursor (cursor + d) with
        | some b =>
          rw [hb] at h
          have hrec := ih (b.2 + 15) slots hd h s hs
          have hcb : cursor < b.2 := (firstBlocking_some hb).1
          exact ⟨hrec.1, le_trans (by omega) hrec.2.1, hrec.2.2⟩
        | none =>
          rw [hb] at h
          rcases Option.map_eq_some'.mp h with ⟨rest, hrest, hcons⟩
          subst hcons
          rcases List.mem_cons.mp hs with hhead | htail
          · subst hhead
            refine ⟨rfl, le_refl _, by omega, ?_⟩
            intro b hbmem hover
            exact firstBlocking_none hb b hbmem ⟨hover.1, by omega⟩
          · have hrec := ih (cursor + d) rest hd hrest s htail
            exact ⟨hrec.1, by omega, hrec.2.2⟩
    · simp only [if_neg h1] at h
      cases h
      simp at hs

/-- With a positive duration the scan terminates: the cursor strictly
advances every iteration (by `d` on a free candidate, to `blockingEnd + 15`
on a conflict), so fuel exceeding the remaining window length in minutes
always suffices. -/
theorem findFreeSlotsAux_isSome (busy : List Interval) (d endT : Int) (hd : 0 < d) :
    ∀ (fuel : Nat) (cursor : Int),
      (endT - cursor).toNat < fuel →
      (findFreeSlotsAux busy d endT cursor fuel).isSome := by
  intro fuel
  induction fuel with
  | zero =>
    intro cursor hfuel
    omega
  | succ fuel' ih =>
    intro cursor hfuel
    rw [findFreeSlotsAux]
    by_cases h1 : cursor < endT
    · simp only [if_pos h1]
      by_cases h2 : cursor + d > endT
      · simp [h2]
      · simp only [if_neg h2]
        cases hb : firstBlocking busy cursor (cursor + d) with
        | some b =>
          have hcb : cursor < b.2 := (firstBlocking_some hb).1
          exact ih (b.2 + 15) (by omega)
        | none =>
          have := ih (cursor + d) (by omega)
          rw [Option.isSome_map']
          exact this
    · simp [h1]

end FindFreeSlotsLemmas

/-- C1: for every busy-interval list and every duration D > 0, every slot
returned by `find_free_slots` on a day window has length exactly D, starts at
or after the window start (midnight of the day), ends at or before window
start + 24h, and overlaps no busy interval under the half-open test
`a.start < b.end ∧ b.start < a.end`. -/
theorem find_free_slots_coverage (busy : List Interval) (d dayStart : Int)
    (slots : List Interval) (hd : 0 < d)
    (h : find_free_slots busy d dayStart = some slots) :
    ∀ s ∈ slots, s.2 - s.1 = d ∧ dayStart ≤ s.1 ∧ s.2 ≤ dayStart + 1440 ∧
      ∀ b ∈ busy, ¬ (s.1 < b.2 ∧ b.1 < s.2) := by
  intro s hs
  have := findFreeSlotsAux_sound busy d (dayStart + minutesPerDay) 1441 dayStart slots hd h s hs
  refine ⟨by omega, this.2.1, ?_, this.2.2.2⟩
  have := this.2.2.1
  simp only [minutesPerDay] at this
  omega

/-- Closed instance of C1: day with one busy interval `[540, 600)` and a
720-minute request yields exactly the slot `[615, 1335)`, which satisfies
every clause of the coverage property. -/
theorem find_free_slots_coverage_witness :
    ((615 : Int), (1335 : Int)).2 - ((615 : Int), (1335 : Int)).1 = 720 ∧
      (0 : Int) ≤ ((615 : Int), (1335 : Int)).1 ∧
      ((615 : Int), (1335 : Int)).2 ≤ (0 : Int) + 1440 ∧
      ∀ b ∈ [(((540 : Int), (600 : Int)) : Interval)],
        ¬ (((615 : Int), (1335 : Int)).1 < b.2 ∧ b.1 < ((615 : Int), (1335 : Int)).2) :=
  find_free_slots_coverage [((540 : Int), (600 : Int))] 720 0 [((615 : Int), (1335 : Int))]
    (by decide) (by decide) ((615 : Int), (1335 : Int)) (by decide)

/-- C2 amended: whenever the candidate `[cursor, cursor + d)` overlaps a busy
interval, the loop's next cursor value is exactly `blockingEnd + 15` minutes
(the source first sets the cursor to the end of the first intersecting busy
interval in list order and then adds the 15-minute step), which is strictly
greater than the spec's `max(cursor + 15, blockingEnd)`. -/
theorem find_free_slots_conflict_step (busy : List Interval) (d endT cursor : Int)
    (b : Interval) (fuel : Nat) (h1 : cursor < endT) (h2 : ¬ cursor + d > endT)
    (h3 : firstBlocking busy cursor (cursor + d) = some b) :
    findFreeSlotsAux busy d endT cursor (fuel + 1) =
      findFreeSlotsAux busy d endT (b.2 + 15) fuel ∧
      max (cursor + 15) b.2 < b.2 + 15 := by
  constructor
  · rw [findFreeSlotsAux]
    simp only [if_pos h1, if_neg h2, h3]
  · have hcb : cursor < b.2 := (firstBlocking_some h3).1
    omega

/-- Closed instance of the amended C2: with busy interval `[540, 600)`, a
30-minute candidate at cursor 540 conflicts, and the loop resumes at
`600 + 15 = 615`, strictly past the spec's `max(555, 600) = 600`. -/
theorem find_free_slots_conflict_step_witness :
    findFreeSlotsAux [(((540 : Int), (600 : Int)) : Interval)] 30 1440 540 101 =
      findFreeSlotsAux [(((540 : Int), (600 : Int)) : Interval)] 30 1440 615 100 ∧
      max ((540 : Int) + 15) 600 < 600 + 15 :=
  find_free_slots_conflict_step [((540 : Int), (600 : Int))] 30 1440 540
    ((540 : Int), (600 : Int)) 100 (by decide) (by decide) (by decide)

/-- Counterexample to C2 as stated: on the day with busy `[540, 600)` and
duration 30, the spec's `max(cursor + 15, blockingEnd)` advance would resume
at 600 and emit the slot `[600, 630)`, but the source resumes at 615: the
slot `[600, 630)` is never produced and `[615, 645)` is produced instead. -/
theorem find_free_slots_conflict_advance_cex :
    ((600 : Int), (630 : Int)) ∈
        (find_free_slots_specStep [((540 : Int), (600 : Int))] 30 0).getD [] ∧
      ((600 : Int), (630 : Int)) ∉
        (find_free_slots [((540 : Int), (600 : Int))] 30 0).getD [] ∧
      ((615 : Int), (645 : Int)) ∈
        (find_free_slots [((540 : Int), (600 : Int))] 30 0).getD [] := by
  decide

/-- C6 (divergence witness): `find_free_slots` performs no validation of the
requested duration.  With `duration_minutes = 0` and no busy intervals the
cursor never advances (each iteration emits the empty slot `[cursor, cursor)`
and sets the cursor to `cursor + 0`), so no amount of fuel makes the scan
return: the call loops forever instead of rejecting the request. -/
theorem find_free_slots_zero_duration_diverges :
    (∀ fuel : Nat, findFreeSlotsAux [] 0 1440 0 fuel = none) ∧
      find_free_slots [] 0 0 = none := by
  have hall : ∀ fuel : Nat, findFreeSlotsAux [] 0 1440 0 fuel = none := by
    intro fuel
    induction fuel with
    | zero => rfl
    | succ fuel' ih =>
      rw [findFreeSlotsAux]
      norm_num
      have hfb : firstBlocking [] 0 0 = none := rfl
      rw [hfb, ih]
      rfl
  refine ⟨hall, ?_⟩
  show findFreeSlotsAux [] 0 (0 + minutesPerDay) 0 1441 = none
  have he : (0 : Int) + minutesPerDay = 1440 := by simp [minutesPerDay]
  rw [he]
  exact hall 1441

/-- C7: for every busy list and every strictly positive duration, the scan of
`find_free_slots` terminates — the cursor strictly advances each iteration,
so the fuel 1441 (one more than the minutes in the day window) is never
exhausted and a result is always produced. -/
theorem find_free_slots_terminates (busy : List Interval) (d dayStart : Int) (hd : 0 < d) :
    (find_free_slots busy d dayStart).isSome := by
  apply findFreeSlotsAux_isSome busy d (dayStart + minutesPerDay) hd 1441 dayStart
  simp only [minutesPerDay]
  omega

/-- Closed instance of C7: a day with one busy interval and a one-hour
request produces a result. -/
theorem find_free_slots_terminates_witness :
    (find_free_slots [(((540 : Int), (600 : Int)) : Interval)] 60 0).isSome :=
  find_free_slots_terminates [((540 : Int), (600 : Int))] 60 0 (by decide)

/-- Stored calendar event as the provider returns it: id, half-open interval
`[start, stop)` in minutes, and a priority label (`x.get('priority',
'medium')` never fails in the model because the field is always present). -/
structure CalEvent where
  eid : Nat
  start : Int
  stop : Int
  priority : String
deriving DecidableEq

/-- Python exception kinds the scheduler paths can raise: `valueError` for
the explicit `raise ValueError(...)` statements, `typeError` for the two
ill-typed expressions traced in the doc comments below. -/
inductive PyErr where
  | typeError
  | valueError
deriving DecidableEq

/-- Model of `check_conflicts(start_time, end_time)` (calendar.py 108-118):
the provider lists the events intersecting the half-open query window. -/
def check_conflicts (store : List CalEvent) (lo hi : Int) : List CalEvent :=
  store.filter (fun ev => decide (lo < ev.stop) && decide (ev.start < hi))

/-- Model of `update_event(event_id, event_data)` (calendar.py 120-143) with
both times supplied: the stored event with that id gets the new interval, and
the updated store is the post-state of the executed API update. -/
def update_event (store : List CalEvent) (eid : Nat) (s e : Int) : List CalEvent :=
  store.map (fun ev => if ev.eid = eid then { ev with start := s, stop := e } else ev)

/-- Model of `reschedule_conflicts(event_id, new_time)` (scheduler.py 63-99).
The original event is fetched from the provider, its duration kept, and the
desired window probed with `check_conflicts`.  When the probe reports
conflicts the source calls `find_free_slots(new_time.date(), ...)`; the first
statement of `find_free_slots` is `date.replace(hour=0, minute=0, second=0,
microsecond=0)`, and Python's `datetime.date.replace` accepts no `hour`
keyword, so that call raises `TypeError` before any slot search — the
nearest-slot selection and the `raise ValueError` that follow it are
unreachable.  When the probe is clean the event is updated (persisted) via
`update_event` and the updated event plus post-state store are returned. -/
def reschedule_conflicts (store : List CalEvent) (eid : Nat) (newTime : Int) :
    Except PyErr (CalEvent × List CalEvent) :=
  match store.find? (fun ev => ev.eid == eid) with
  | none => .error .valueError
  | some ev =>
    let duration := ev.stop - ev.start
    if (check_conflicts store newTime (newTime + duration)).isEmpty then
      .ok ({ ev with start := newTime, stop := newTime + duration },
        update_event store eid newTime (newTime + duration))
    else .error .typeError

/-- PRIORITY_LEVELS of config.py line 32. -/
def PRIORITY_LEVELS : List String := ["low", "medium", "high", "urgent"]

/-- Model of `priority_order = {priority: i for i, priority in
enumerate(PRIORITY_LEVELS)}` followed by `priority_order.get(p, 0)`
(scheduler.py 171-174): the label's index in the configured list, 0 when the
label is absent.  The configured list has no duplicate labels, so the dict
index and the first index agree. -/
def priority_rank (levels : List String) (p : String) : Nat :=
  (levels.findIdx? (fun q => q == p)).getD 0

/-- Insert an event after every already-placed event of rank at most its own;
folding this over the input reproduces Python's stable `sorted`. -/
def insertByRank (e : CalEvent) : List CalEvent → List CalEvent
  | [] => [e]
  | x :: xs =>
    if priority_rank PRIORITY_LEVELS x.priority ≤ priority_rank PRIORITY_LEVELS e.priority then
      x :: insertByRank e xs
    else e :: x :: xs

/-- Stable sort of the day's events by priority rank (scheduler.py 170-175). -/
def sort_events (events : List CalEvent) : List CalEvent :=
  events.foldl (fun acc e => insertByRank e acc) []

/-- Entry of the optimized schedule: the event dict plus the parsed
`start_time` / `end_time` the walk appends (scheduler.py 193-210). -/
structure OptEntry where
  ev : CalEvent
  start : Int
  stop : Int
deriving DecidableEq

/-- Walk of `optimize_schedule` (scheduler.py 178-211): each event is checked
for overlap against the accumulator of already-placed entries; on a conflict
`reschedule_conflicts` is attempted, `except ValueError` keeps the original
interval, and any other exception propagates and aborts the batch.  The store
is threaded because a successful reschedule has already persisted its update.
The accumulator is kept reversed and restored on return. -/
def optimizeGo : List CalEvent → List OptEntry → List CalEvent → Except PyErr (List OptEntry)
  | _, acc, [] => .ok acc.reverse
  | store, acc, ev :: rest =>
    let conflicts :=
      acc.filter (fun p => decide (ev.start < p.stop) && decide (ev.stop > p.start))
    if conflicts.isEmpty then
      optimizeGo store (⟨ev, ev.start, ev.stop⟩ :: acc) rest
    else
      match reschedule_conflicts store ev.eid ev.start with
      | .ok (ev', store') => optimizeGo store' (⟨ev', ev'.start, ev'.stop⟩ :: acc) rest
      | .error .valueError => optimizeGo store (⟨ev, ev.start, ev.stop⟩ :: acc) rest
      | .error e => .error e

/-- Model of `optimize_schedule(date)` (scheduler.py 165-212): the day's
agenda is read from the provider (the store), sorted by priority rank, and
walked with an initially empty accumulator. -/
def optimize_schedule (store : List CalEvent) : Except PyErr (List OptEntry) :=
  optimizeGo store [] (sort_events store)

/-- C3 (divergence witness): two overlapping events, priorities "low" and
"medium".  The lower-ranked event is placed first; the second conflicts with
the accumulator, so the walk calls `reschedule_conflicts`, whose conflict
probe against the provider always contains the event's own stored interval,
and the `find_free_slots(new_time.date(), ...)` call then raises `TypeError`.
The walk catches only `ValueError`, so the whole batch aborts instead of
keeping the original interval and continuing. -/
theorem optimize_schedule_conflict_crash :
    optimize_schedule
        [⟨1, 540, 600, "low"⟩, ⟨2, 540, 600, "medium"⟩] =
      Except.error PyErr.typeError := by
  rfl

/-- Counterexample to C5: rescheduling the sole stored event `[0, 60)` to a
conflict-free desired start 120 returns the resolved interval `[120, 180)`
together with a provider store in which the stored event has been updated —
the operation itself persisted the change, so the stored calendar event is
not unchanged. -/
theorem reschedule_persists_cex :
    reschedule_conflicts [⟨1, 0, 60, "medium"⟩] 1 120 =
        Except.ok (⟨1, 120, 180, "medium"⟩, [⟨1, 120, 180, "medium"⟩]) ∧
      ([(⟨1, 120, 180, "medium"⟩ : CalEvent)] ≠ [⟨1, 0, 60, "medium"⟩]) :=
  ⟨rfl, by decide⟩

/-- C5 amended: whenever `reschedule_conflicts` succeeds it returns an event
resolved at the desired start, and the returned provider store is exactly
`update_event` applied at the resolved interval — the operation persists the
resolved interval itself rather than leaving persistence to the caller. -/
theorem reschedule_conflicts_persists (store : List CalEvent) (eid : Nat) (t : Int)
    (ev' : CalEvent) (store' : List CalEvent)
    (h : reschedule_conflicts store eid t = .ok (ev', store')) :
    ev'.start = t ∧ store' = update_event store eid ev'.start ev'.stop := by
  unfold reschedule_conflicts at h
  cases hf : store.find? (fun ev => ev.eid == eid) with
  | none =>
    rw [hf] at h
    cases h
  | some ev =>
    rw [hf] at h
    by_cases hc : (check_conflicts store t (t + (ev.stop - ev.start))).isEmpty
    · simp only [if_pos hc] at h
      cases h
      exact ⟨rfl, rfl⟩
    · simp only [if_neg hc] at h
      cases h

/-- Closed instance of the amended C5, at the same input as the
counterexample: the returned store is the `update_event` post-state. -/
theorem reschedule_conflicts_persists_witness :
    (⟨1, 120, 180, "medium"⟩ : CalEvent).start = 120 ∧
      [(⟨1, 120, 180, "medium"⟩ : CalEvent)] =
        update_event [⟨1, 0, 60, "medium"⟩] 1 (⟨1, 120, 180, "medium"⟩ : CalEvent).start
          (⟨1, 120, 180, "medium"⟩ : CalEvent).stop :=
  reschedule_conflicts_persists [⟨1, 0, 60, "medium"⟩] 1 120 ⟨1, 120, 180, "medium"⟩
    [⟨1, 120, 180, "medium"⟩] rfl

/-- C8: any priority label outside the configured list falls back to rank 0
through the implicit `.get(..., 0)` default — the very rank assigned to the
first configured label "low". -/
theorem priority_rank_unknown_default (p : String) (h : p ∉ PRIORITY_LEVELS) :
    priority_rank PRIORITY_LEVELS p = 0 ∧
      priority_rank PRIORITY_LEVELS "low" = 0 ∧ PRIORITY_LEVELS.head? = some "low" := by
  refine ⟨?_, rfl, rfl⟩
  have hnone : PRIORITY_LEVELS.findIdx? (fun q => q == p) = none := by
    simp only [PRIORITY_LEVELS, List.mem_cons, List.not_mem_nil, or_false, not_or] at h
    obtain ⟨h1, h2, h3, h4⟩ := h
    simp [List.findIdx?, Ne.symm h1, Ne.symm h2, Ne.symm h3, Ne.symm h4]
  simp [priority_rank, hnone]

/-- Closed instance of C8: the malformed label "critical" ranks 0, exactly
like the first configured label. -/
theorem priority_rank_unknown_default_witness :
    priority_rank PRIORITY_LEVELS "critical" = 0 ∧
      priority_rank PRIORITY_LEVELS "low" = 0 ∧ PRIORITY_LEVELS.head? = some "low" :=
  priority_rank_unknown_default "critical" (by decide)

/-- Hour of day (Python `datetime.hour`) of a time in minutes, for the
nonnegative times the calendar produces. -/
def hourOf (t : Int) : Int := (t % 1440) / 60

/-- Model of `_select_best_slot(free_slots, priority)` (scheduler.py 52-61):
for "high"/"urgent" the morning slots (start hour before 12) are filtered and
the first one returned when any exists; otherwise, and for every other
priority, the first slot is returned.  `free_slots[0]` on an empty list would
raise IndexError; every caller guards non-emptiness, modelled by `head?`. -/
def _select_best_slot (slots : List Interval) (priority : String) : Option Interval :=
  if priority = "high" ∨ priority = "urgent" then
    match slots.filter (fun s => decide (hourOf s.1 < 12)) with
    | m :: _ => some m
    | [] => slots.head?
  else slots.head?

/-- Head of a filtered chronologically-sorted list starts no later than any
element satisfying the filter. -/
theorem filter_head_min {p : Interval → Bool} :
    ∀ (slots : List Interval), slots.Pairwise (fun a b => a.1 ≤ b.1) →
      ∀ (m : Interval) (rest : List Interval), slots.filter p = m :: rest →
        ∀ t ∈ slots, p t = true → m.1 ≤ t.1 := by
  intro slots
  induction slots with
  | nil =>
    intro _ m rest h
    simp at h
  | cons x xs ih =>
    intro hsort m rest h t ht hp
    rw [List.filter_cons] at h
    by_cases hx : p x
    · rw [if_pos hx] at h
      injection h with h1 h2
      subst h1
      rcases List.mem_cons.mp ht with rfl | hmem
      · exact le_refl _
      · exact (List.pairwise_cons.mp hsort).1 t hmem
    · simp only [hx, if_neg, Bool.false_eq_true, if_false] at h
      rcases List.mem_cons.mp ht with rfl | hmem
      · exact absurd hp (by simpa using hx)
      · exact ih (List.pairwise_cons.mp hsort).2 m rest h t hmem hp

/-- C9: on a non-empty chronologically ordered slot list, "high"/"urgent"
priority selects the earliest slot starting before 12:00 and falls back to
the first slot when no morning slot exists; every other priority gets the
first slot.  In all cases a slot is returned. -/
theorem select_best_slot_spec (slots : List Interval) (p : String)
    (hne : slots ≠ []) (hsort : slots.Pairwise (fun a b => a.1 ≤ b.1)) :
    ((p = "high" ∨ p = "urgent") →
        (∃ m, _select_best_slot slots p = some m ∧ m ∈ slots ∧ hourOf m.1 < 12 ∧
            ∀ t ∈ slots, hourOf t.1 < 12 → m.1 ≤ t.1) ∨
        ((∀ t ∈ slots, ¬ hourOf t.1 < 12) ∧ _select_best_slot slots p = slots.head?)) ∧
      (¬ (p = "high" ∨ p = "urgent") → _select_best_slot slots p = slots.head?) ∧
      ∃ m, _select_best_slot slots p = some m := by
  have hhead : ∃ first, slots.head? = some first := by
    cases slots with
    | nil => exact absurd rfl hne
    | cons a l => exact ⟨a, rfl⟩
  refine ⟨?_, ?_, ?_⟩
  · intro hp
    unfold _select_best_slot
    rw [if_pos hp]
    cases hf : slots.filter (fun s => decide (hourOf s.1 < 12)) with
    | nil =>
      right
      refine ⟨?_, rfl⟩
      intro t ht hlt
      have hmem : t ∈ slots.filter (fun s => decide (hourOf s.1 < 12)) :=
        List.mem_filter.mpr ⟨ht, by simpa using hlt⟩
      rw [hf] at hmem
      simp at hmem
    | cons m rest =>
      left
      have hm : m ∈ slots.filter (fun s => decide (hourOf s.1 < 12)) := by
        rw [hf]
        exact List.mem_cons_self m rest
      refine ⟨m, rfl, (List.mem_filter.mp hm).1, ?_, ?_⟩
      · have := (List.mem_filter.mp hm).2
        simpa using this
      · intro t ht hlt
        exact filter_head_min slots hsort m rest hf t ht (by simpa using hlt)
  · intro hp
    unfold _select_best_slot
    rw [if_neg hp]
  · obtain ⟨first, hfirst⟩ := hhead
    unfold _select_best_slot
    by_cases hp : p = "high" ∨ p = "urgent"
    · rw [if_pos hp]
      cases hf : slots.filter (fun s => decide (hourOf s.1 < 12)) with
      | nil => exact ⟨first, hfirst⟩
      | cons m rest => exact ⟨m, rfl⟩
    · rw [if_neg hp]
      exact ⟨first, hfirst⟩

/-- Closed instance of C9 at the spec's own example: slots `[540, 600)` and
`[840, 900)` with priority "urgent" select the morning slot `[540, 600)`. -/
theorem select_best_slot_spec_witness :
    ((("urgent" : String) = "high" ∨ ("urgent" : String) = "urgent") →
        (∃ m, _select_best_slot [(((540 : Int), (600 : Int)) : Interval), (840, 900)] "urgent" =
              some m ∧
            m ∈ [(((540 : Int), (600 : Int)) : Interval), (840, 900)] ∧ hourOf m.1 < 12 ∧
            ∀ t ∈ [(((540 : Int), (600 : Int)) : Interval), (840, 900)],
              hourOf t.1 < 12 → m.1 ≤ t.1) ∨
        ((∀ t ∈ [(((540 : Int), (600 : Int)) : Interval), (840, 900)], ¬ hourOf t.1 < 12) ∧
          _select_best_slot [(((540 : Int), (600 : Int)) : Interval), (840, 900)] "urgent" =
            [(((540 : Int), (600 : Int)) : Interval), (840, 900)].head?)) ∧
      (¬ (("urgent" : String) = "high" ∨ ("urgent" : String) = "urgent") →
        _select_best_slot [(((540 : Int), (600 : Int)) : Interval), (840, 900)] "urgent" =
          [(((540 : Int), (600 : Int)) : Interval), (840, 900)].head?) ∧
      ∃ m, _select_best_slot [(((540 : Int), (600 : Int)) : Interval), (840, 900)] "urgent" =
        some m :=
  select_best_slot_spec [((540 : Int), (600 : Int)), (840, 900)] "urgent" (by decide)
    (by decide)

/-- Subtraction of two Python `datetime.time` values, as written in
`abs(x['start'].time() - preferred_time)` (scheduler.py 150).  Python's
`datetime.time` type defines no subtraction operator, so evaluating the
expression raises `TypeError` for every pair of operands: the computation
never yields a value. -/
def timeOfDaySub (_a _b : Int) : Option Int := none

/-- Python's `min(xs, key=k)` with a fallible key: the first element whose
key is minimal, `none` when the list is empty (ValueError) or any key
evaluation raises. -/
def pyMinByKeyAux {α : Type} (key : α → Option Int) : List α → Option (α × Int)
  | [] => none
  | x :: xs =>
    match key x, xs with
    | none, _ => none
    | some kx, [] => some (x, kx)
    | some kx, y :: ys =>
      match pyMinByKeyAux key (y :: ys) with
      | none => none
      | some (m, km) => if km < kx then some (m, km) else some (x, kx)

/-- The element Python's `min(xs, key=k)` returns. -/
def pyMinByKey {α : Type} (key : α → Option Int) (xs : List α) : Option α :=
  (pyMinByKeyAux key xs).map Prod.fst

/-- Per-day selection of `suggest_routine_times` (scheduler.py 145-153): when
a preferred time is given, take the slot minimising
`abs(x['start'].time() - preferred_time)` — an expression that raises
`TypeError` (see `timeOfDaySub`) — otherwise the first free slot. -/
def pickBest (preferredTime : Option Int) (slots : List Interval) : Option Interval :=
  match preferredTime with
  | some t => pyMinByKey (fun s => timeOfDaySub (s.1 % 1440) t) slots
  | none => slots.head?

/-- One suggested routine placement: the day (absolute day number, day 0 a
Monday so `weekday = date % 7`) and the selected slot. -/
structure Suggestion where
  date : Nat
  start : Int
  stop : Int
deriving DecidableEq

/-- One day of the lookahead loop of `suggest_routine_times` (scheduler.py
137-161), given the suggestions of the remaining days: a day whose weekday is
not allowed, or with no free slot, contributes nothing; a day with slots
prepends the picked slot.  A `none` models a raised exception (the
preferred-time `TypeError`) or a non-returning `find_free_slots` scan. -/
def suggestStep (getBusy : Nat → List Interval) (durationMinutes : Int)
    (preferredTime : Option Int) (days : List Nat) (d : Nat)
    (laterDays : Option (List Suggestion)) : Option (List Suggestion) :=
  if d % 7 ∈ days then
    match find_free_slots (getBusy d) durationMinutes (minutesPerDay * (d : Int)) with
    | none => none
    | some slots =>
      if slots.isEmpty then laterDays
      else
        match pickBest preferredTime slots with
        | none => none
        | some best => laterDays.map (fun rest => ⟨d, best.1, best.2⟩ :: rest)
  else laterDays

/-- Day loop of `suggest_routine_times`: `n` days remaining, `d` the current
absolute day number, `getBusy` the provider's busy intervals per day. -/
def suggestGo (getBusy : Nat → List Interval) (durationMinutes : Int)
    (preferredTime : Option Int) (days : List Nat) :
    Nat → Nat → Option (List Suggestion)
  | 0, _ => some []
  | n + 1, d =>
    suggestStep getBusy durationMinutes preferredTime days d
      (suggestGo getBusy durationMinutes preferredTime days n (d + 1))

/-- Model of `suggest_routine_times(routine_data)` (scheduler.py 127-163):
look ahead 7 days from `startDay`, defaulting the allowed weekdays to Monday
through Friday (`days_of_week` defaults to `[0, 1, 2, 3, 4]`) when the
request omits them. -/
def suggest_routine_times (getBusy : Nat → List Interval) (durationMinutes : Int)
    (preferredTime : Option Int) (daysOfWeek : Option (List Nat)) (startDay : Nat) :
    Option (List Suggestion) :=
  suggestGo getBusy durationMinutes preferredTime (daysOfWeek.getD [0, 1, 2, 3, 4]) 7 startDay

/-- C4 (divergence witness): an empty calendar, a one-hour routine and
preferred time 23:30 (minute 1410).  The first allowed day has free slots, so
the source evaluates `abs(x['start'].time() - preferred_time)` and raises
`TypeError`: the call produces no suggestion list at all, instead of the slot
with minimal linear time-of-day distance. -/
theorem suggest_routine_preferred_crash :
    suggest_routine_times (fun _ => []) 60 (some 1410) none 0 = none := by
  decide

/-- Suggestions one day step emits fall on allowed weekdays, provided those
of the remaining days do. -/
theorem suggestStep_weekday (getBusy : Nat → List Interval) (dm : Int) (pt : Option Int)
    (days : List Nat) (d : Nat) (laterDays : Option (List Suggestion))
    (res : List Suggestion)
    (h : suggestStep getBusy dm pt days d laterDays = some res)
    (hlater : ∀ res', laterDays = some res' → ∀ s ∈ res', s.date % 7 ∈ days) :
    ∀ s ∈ res, s.date % 7 ∈ days := by
  unfold suggestStep at h
  by_cases hw : d % 7 ∈ days
  · rw [if_pos hw] at h
    cases hf : find_free_slots (getBusy d) dm (minutesPerDay * (d : Int)) with
    | none =>
      rw [hf] at h
      cases h
    | some slots =>
      rw [hf] at h
      dsimp only at h
      by_cases he : slots.isEmpty
      · rw [if_pos he] at h
        exact hlater res h
      · rw [if_neg he] at h
        cases hb : pickBest pt slots with
        | none =>
          rw [hb] at h
          cases h
        | some best =>
          rw [hb] at h
          rcases Option.map_eq_some'.mp h with ⟨rest, hrest, hcons⟩
          subst hcons
          intro s hs
          rcases List.mem_cons.mp hs with rfl | hmem
          · exact hw
          · exact hlater rest hrest s hmem
  · rw [if_neg hw] at h
    exact hlater res h

/-- Suggestions emitted by the day loop all fall on allowed weekdays. -/
theorem suggestGo_weekday_allowed (getBusy : Nat → List Interval) (dm : Int)
    (pt : Option Int) (days : List Nat) :
    ∀ (n d : Nat) (res : List Suggestion),
      suggestGo getBusy dm pt days n d = some res →
      ∀ s ∈ res, s.date % 7 ∈ days := by
  intro n
  induction n with
  | zero =>
    intro d res h s hs
    have h0 : suggestGo getBusy dm pt days 0 d = some [] := rfl
    rw [h0] at h
    cases h
    simp at hs
  | succ n ih =>
    intro d res h
    have h1 : suggestGo getBusy dm pt days (n + 1) d =
        suggestStep getBusy dm pt days d (suggestGo getBusy dm pt days n (d + 1)) := rfl
    rw [h1] at h
    exact suggestStep_weekday getBusy dm pt days d _ res h (fun res' h' => ih (d + 1) res' h')

/-- C10: a routine request that omits `days_of_week` defaults to Monday
through Friday, so whenever `suggest_routine_times` returns, none of its
suggestions falls on a Saturday (weekday 5) or Sunday (weekday 6). -/
theorem suggest_routine_weekday_default (getBusy : Nat → List Interval)
    (durationMinutes : Int) (preferredTime : Option Int) (startDay : Nat)
    (res : List Suggestion)
    (h : suggest_routine_times getBusy durationMinutes preferredTime none startDay = some res) :
    ∀ s ∈ res, s.date % 7 ≠ 5 ∧ s.date % 7 ≠ 6 := by
  intro s hs
  have hmem := suggestGo_weekday_allowed getBusy durationMinutes preferredTime
    [0, 1, 2, 3, 4] 7 startDay res h s hs
  simp only [List.mem_cons, List.not_mem_nil, or_false] at hmem
  omega

/-- Closed instance of C10: starting on a Friday (day 4) with an empty
calendar and no preferred time, the 7-day lookahead yields a suggestion for
the Friday itself, whose weekday is neither Saturday nor Sunday. -/
theorem suggest_routine_weekday_default_witness :
    (⟨4, 5760, 6480⟩ : Suggestion).date % 7 ≠ 5 ∧
      (⟨4, 5760, 6480⟩ : Suggestion).date % 7 ≠ 6 :=
  suggest_routine_weekday_default (fun _ => []) 720 none 4
    [⟨4, 5760, 6480⟩, ⟨7, 10080, 10800⟩, ⟨8, 11520, 12240⟩, ⟨9, 12960, 13680⟩,
      ⟨10, 14400, 15120⟩]
    (by decide) ⟨4, 5760, 6480⟩ (by simp)

end CalTalk
